import Mathlib

/-!
Verification of the MediaParser repository against its natural-language
specification.  Each Python function relevant to the checked claims is
shallowly embedded as an executable Lean definition; machine integers are
modelled as `Nat`/`Int`, Python `None` as `Option`, and database rows as
structures.  Sources:
  * `src/app/lib/perceptual.py`  — hashing distance, clustering, grouping
  * `src/app/lib/confidence.py`  — timestamp confidence scoring
  * `src/app/lib/duplicates.py`  — duplicate quality recommendation
  * `src/app/tasks.py`           — import/export job control
  * `src/app/routes/review.py`   — mutation API
-/

namespace MediaParser

/-! ## Module constants (src/app/lib/perceptual.py lines 14-19) -/

def EXACT_THRESHOLD : Nat := 5

def SIMILAR_THRESHOLD : Nat := 20

def CLUSTER_WINDOW_SECONDS : Int := 5

def BURST_THRESHOLD : Int := 2

def PANORAMA_THRESHOLD : Int := 30

/-! ## Population count

`int.bit_count()` in Python returns the number of ones in the binary
representation of the absolute value of the integer.  We implement it with
an explicit fuel argument (the number itself bounds the recursion depth) so
that the definition is structural and evaluates inside the kernel. -/

def popCountAux : Nat → Nat → Nat
  | 0, _ => 0
  | fuel + 1, n => if n = 0 then 0 else n % 2 + popCountAux fuel (n / 2)

/-- Number of ones in the binary representation of `n` (Python `bit_count`
on a non-negative value). -/
def popCount (n : Nat) : Nat := popCountAux n n

/-! ## Python `int(s, 16)`

`hamming_distance` converts its arguments with `int(hash, 16)`.  CPython
accepts: surrounding ASCII whitespace, an optional sign, an optional
`0x`/`0X` prefix, and hexadecimal digits with single underscores between
digits (an underscore directly after the prefix is also allowed).  Anything
else raises `ValueError`, which the source catches and maps to 999. -/

def isPyWhitespace (c : Char) : Bool :=
  c = ' ' ∨ c = '\t' ∨ c = '\n' ∨ c = '\x0d' ∨ c = '\x0b' ∨ c = '\x0c'

def isHexDigitChar (c : Char) : Bool :=
  ('0' ≤ c ∧ c ≤ '9') ∨ ('a' ≤ c ∧ c ≤ 'f') ∨ ('A' ≤ c ∧ c ≤ 'F')

def hexDigitVal (c : Char) : Nat :=
  if '0' ≤ c ∧ c ≤ '9' then c.toNat - 48
  else if 'a' ≤ c ∧ c ≤ 'f' then c.toNat - 87
  else c.toNat - 55

/-- Core digit scanner: `lastDigit` records whether the previous character
was a digit (an underscore is legal only there, and the string may not end
in an underscore).  Returns the accumulated value. -/
def hexCore : Nat → Bool → List Char → Option Nat
  | acc, lastDigit, [] => if lastDigit then some acc else none
  | acc, lastDigit, c :: cs =>
    if isHexDigitChar c then hexCore (16 * acc + hexDigitVal c) true cs
    else if c = '_' then
      if lastDigit then hexCore acc false cs else none
    else none

def dropLeadingWs : List Char → List Char
  | [] => []
  | c :: cs => if isPyWhitespace c then dropLeadingWs cs else c :: cs

def trimWs (cs : List Char) : List Char :=
  ((dropLeadingWs cs.reverse).reverse |> dropLeadingWs)

/-- Parse the digit part after an optional `0x`/`0X` prefix.  After the
prefix a leading underscore is allowed; without it the first character must
be a hex digit (`hexCore` starts with `lastDigit = false`, which rejects a
leading underscore and the empty string). -/
def parseHexMagnitude : List Char → Option Nat
  | '0' :: 'x' :: rest => if rest = [] then none else hexCore 0 true rest
  | '0' :: 'X' :: rest => if rest = [] then none else hexCore 0 true rest
  | cs => hexCore 0 false cs

/-- Model of Python `int(s, 16)`: `none` when `ValueError` is raised. -/
def parseHexInt (s : String) : Option Int :=
  match trimWs s.data with
  | '+' :: rest => (parseHexMagnitude rest).map (fun n => (n : Int))
  | '-' :: rest => (parseHexMagnitude rest).map (fun n => -(n : Int))
  | cs => (parseHexMagnitude cs).map (fun n => (n : Int))

/-! ## Two's-complement XOR magnitude

Python XOR on unbounded integers is two's complement; `bit_count` then
takes the popcount of the absolute value.  `xorAbs a b = |a XOR b|`,
computed by sign analysis (for `a < 0` the bit pattern of `a` is the
complement of the pattern of `|a| - 1`). -/

def xorAbs (a b : Int) : Nat :=
  if 0 ≤ a then
    if 0 ≤ b then a.natAbs ^^^ b.natAbs
    else (a.natAbs ^^^ (b.natAbs - 1)) + 1
  else
    if 0 ≤ b then ((a.natAbs - 1) ^^^ b.natAbs) + 1
    else (a.natAbs - 1) ^^^ (b.natAbs - 1)

/-- Python truthiness of an optional string: `None` and `""` are falsy. -/
def strFalsy : Option String → Bool
  | none => true
  | some s => s.data = []

/-- `hamming_distance` (src/app/lib/perceptual.py lines 22-57): Hamming
distance between two perceptual-hash hex strings; 999 for `None`/empty
inputs and for strings `int(·, 16)` rejects. -/
def hamming_distance (hash1 hash2 : Option String) : Nat :=
  if strFalsy hash1 ∨ strFalsy hash2 then 999
  else
    match parseHexInt ((hash1.getD "")), parseHexInt ((hash2.getD "")) with
    | some int1, some int2 => popCount (xorAbs int1 int2)
    | _, _ => 999

/-! ## The File row (app/models.py, fields used by the claims)

Timestamps are modelled as UTC instants in whole seconds (`Int`); nullable
columns are `Option`. -/

structure File where
  id : Nat
  original_filename : String
  detected_timestamp : Option Int
  final_timestamp : Option Int
  reviewed_at : Option Int
  discarded : Bool
  processing_error : Option String
  output_path : Option String
  file_hash_sha256 : Option String
  file_hash_perceptual : Option String
  exact_group_id : Option String
  exact_group_confidence : Option String
  similar_group_id : Option String
  similar_group_confidence : Option String
  similar_group_type : Option String
  deriving Repr, DecidableEq

instance : Inhabited File :=
  ⟨⟨0, "", none, none, none, false, none, none, none, none, none, none, none,
    none, none⟩⟩

/-- `detect_sequence_type` (perceptual.py lines 115-137). -/
def detect_sequence_type (file_a file_b : File) : String :=
  match file_a.detected_timestamp, file_b.detected_timestamp with
  | some ta, some tb =>
    let gap := |ta - tb|
    if gap < BURST_THRESHOLD then "burst"
    else if gap < PANORAMA_THRESHOLD then "panorama"
    else "similar"
  | _, _ => "similar"

/-- `distance_to_exact_confidence` (perceptual.py lines 140-153). -/
def distance_to_exact_confidence (_distance : Nat) : String := "high"

/-- `distance_to_similar_confidence` (perceptual.py lines 156-174). -/
def distance_to_similar_confidence (distance : Nat) : String :=
  if distance ≤ 10 then "high"
  else if distance ≤ 15 then "medium"
  else "low"

/-- `_generate_group_id` (perceptual.py lines 177-184) returns
`uuid.uuid4().hex[:16]`.  Randomness is modelled by a fresh-name supply:
the `k`-th minted identifier. -/
def generate_group_id (k : Nat) : String := "uuid-" ++ toString k

/-- Mutable state of perceptual detection: the job's files (positional,
mirroring Python object identity) plus the fresh-id counter. -/
structure PState where
  files : List File
  nextId : Nat
  deriving Repr

/-- Python `a or b or _generate_group_id()` on two nullable strings:
the first truthy value, else a freshly minted id. -/
def firstTruthyOrFresh (a b : Option String) (k : Nat) : String × Nat :=
  if ¬ strFalsy a then (a.getD "", k)
  else if ¬ strFalsy b then (b.getD "", k)
  else (generate_group_id k, k + 1)

/-- `_merge_into_exact_group` (perceptual.py lines 187-210) on the files at
positions `i` and `j`. -/
def merge_into_exact_group (st : PState) (i j : Nat) (distance : Nat) : PState :=
  let fa := st.files.getD i default
  let fb := st.files.getD j default
  let gk := firstTruthyOrFresh fa.exact_group_id fb.exact_group_id st.nextId
  let conf := distance_to_exact_confidence distance
  let fa' := { fa with exact_group_id := some gk.1,
                       exact_group_confidence := some conf }
  let fb' := { fb with exact_group_id := some gk.1,
                       exact_group_confidence := some conf }
  ⟨(st.files.set i fa').set j fb', gk.2⟩

/-- `_merge_into_similar_group` (perceptual.py lines 213-239). -/
def merge_into_similar_group (st : PState) (i j : Nat) (distance : Nat) : PState :=
  let fa := st.files.getD i default
  let fb := st.files.getD j default
  let gk := firstTruthyOrFresh fa.similar_group_id fb.similar_group_id st.nextId
  let conf := distance_to_similar_confidence distance
  let gtype := detect_sequence_type fa fb
  let fa' := { fa with similar_group_id := some gk.1,
                       similar_group_confidence := some conf,
                       similar_group_type := some gtype }
  let fb' := { fb with similar_group_id := some gk.1,
                       similar_group_confidence := some conf,
                       similar_group_type := some gtype }
  ⟨(st.files.set i fa').set j fb', gk.2⟩

/-- The three-way branch of `analyze_cluster` (perceptual.py lines 262-269)
on a computed Hamming distance. -/
inductive PairAction where
  | duplicate
  | similar
  | unrelated
  deriving Repr, DecidableEq

def pairAction (distance : Nat) : PairAction :=
  if distance ≤ EXACT_THRESHOLD then .duplicate
  else if distance ≤ SIMILAR_THRESHOLD then .similar
  else .unrelated

/-- One iteration of the pairwise loop in `analyze_cluster`: skip when
either file lacks a (truthy) perceptual hash, otherwise classify by
Hamming distance and merge. -/
def analyzePairStep (st : PState) (p : Nat × Nat) : PState :=
  let fa := st.files.getD p.1 default
  let fb := st.files.getD p.2 default
  if ¬ strFalsy fa.file_hash_perceptual ∧ ¬ strFalsy fb.file_hash_perceptual then
    let distance := hamming_distance fa.file_hash_perceptual fb.file_hash_perceptual
    match pairAction distance with
    | .duplicate => merge_into_exact_group st p.1 p.2 distance
    | .similar => merge_into_similar_group st p.1 p.2 distance
    | .unrelated => st
  else st

/-- All index pairs `(i, j)` with `i` before `j`, in the order of the
nested loops `for i, file_a in enumerate(cluster): for file_b in
cluster[i+1:]`. -/
def pairsOf : List Nat → List (Nat × Nat)
  | [] => []
  | i :: rest => rest.map (fun j => (i, j)) ++ pairsOf rest

/-- `analyze_cluster` (perceptual.py lines 242-270): pairwise comparison of
every pair inside one timestamp cluster (given by positions into the job's
file list). -/
def analyze_cluster (st : PState) (cluster : List Nat) : PState :=
  (pairsOf cluster).foldl analyzePairStep st

/-- Detected timestamp of the file at position `i` (only ever used on
positions whose timestamp is present). -/
def tsOf (files : List File) (i : Nat) : Int :=
  ((files.getD i default).detected_timestamp).getD 0

/-- The linear scan of `cluster_by_timestamp`: extend the current cluster
while the gap to its last member is within the threshold, otherwise emit it
(if it has ≥ 2 members) and start anew. -/
def clusterScan (files : List File) (thr : Int) :
    List Nat → List Nat → List (List Nat)
  | cur, [] => if 2 ≤ cur.length then [cur] else []
  | cur, i :: rest =>
    let prev := cur.getLast?.getD 0
    let gap := tsOf files i - tsOf files prev
    if gap ≤ thr then clusterScan files thr (cur ++ [i]) rest
    else (if 2 ≤ cur.length then [cur] else []) ++ clusterScan files thr [i] rest

/-- `cluster_by_timestamp` (perceptual.py lines 60-112): positions of the
timestamped files, sorted by timestamp (Python's sort is stable; so is
insertion sort), then chained into clusters of 2+ files. -/
def cluster_by_timestamp (files : List File) (threshold_seconds : Int) :
    List (List Nat) :=
  let timestamped := (List.range files.length).filter
    (fun i => ((files.getD i default).detected_timestamp).isSome)
  if timestamped.length < 2 then []
  else
    match List.insertionSort
        (fun i j => tsOf files i ≤ tsOf files j) timestamped with
    | [] => []
    | i0 :: rest => clusterScan files threshold_seconds [i0] rest

/-- `detect_perceptual_duplicates` (perceptual.py lines 273-313): cluster
by timestamp, then analyze each cluster in order.  Returns the final file
states (and the fresh-id counter). -/
def detect_perceptual_duplicates (files : List File)
    (threshold_seconds : Int) : PState :=
  (cluster_by_timestamp files threshold_seconds).foldl analyze_cluster
    ⟨files, 0⟩

/-- `_mark_duplicate_groups` (src/app/tasks.py lines 101-132): every file
whose `sha256` is shared by at least two of the job's files gets
`exact_group_id :=` the hash value itself and confidence `'high'`; all
other files are untouched.  (The Python code groups by hash with a
`defaultdict` and then mutates each class of size ≥ 2; per file this is
exactly the count condition below.) -/
def mark_duplicate_groups (files : List File) : List File :=
  files.map fun f =>
    match f.file_hash_sha256 with
    | none => f
    | some h =>
      if 2 ≤ files.countP (fun g => g.file_hash_sha256 = some h) then
        { f with exact_group_id := some h,
                 exact_group_confidence := some "high" }
      else f

/-! ## Review mutation API (src/app/routes/review.py) -/

/-- `_clear_similar_fields` (review.py lines 39-43). -/
def clear_similar_fields (f : File) : File :=
  { f with similar_group_id := none,
           similar_group_confidence := none,
           similar_group_type := none }

/-- `resolve_similar_group` (review.py lines 822-866), success path: the
non-discarded members of the group all get their similar fields cleared;
members whose id is not in `keep_file_ids` are additionally marked
discarded.  (No other field of any file is touched.) -/
def resolve_similar_group (group_id : String) (keep_file_ids : List Nat)
    (files : List File) : List File :=
  files.map fun f =>
    if f.similar_group_id = some group_id ∧ f.discarded = false then
      let f' := clear_similar_fields f
      if f.id ∈ keep_file_ids then f' else { f' with discarded := true }
    else f

/-! ## Export ordering (src/app/tasks.py lines 496-507)

The export query filters `discarded == False`, `processing_error IS NULL`,
`output_path IS NULL` and orders by `final_timestamp ASC NULLS LAST,
detected_timestamp ASC NULLS LAST, original_filename ASC`.  A nullable
instant with nulls last is exactly `WithTop Int`; filenames compare
lexicographically (byte order on ASCII = `List Char` order). -/

def exportPred (f : File) : Bool :=
  f.discarded = false ∧ f.processing_error = none ∧ f.output_path = none

def nullsLastKey : Option Int → WithTop Int
  | some v => (v : WithTop Int)
  | none => ⊤

def exportKey (f : File) : (WithTop Int) ×ₗ ((WithTop Int) ×ₗ (List Char)) :=
  toLex (nullsLastKey f.final_timestamp,
    toLex (nullsLastKey f.detected_timestamp, f.original_filename.data))

def exportLe (a b : File) : Prop := exportKey a ≤ exportKey b

instance : DecidableRel exportLe :=
  fun a b => inferInstanceAs (Decidable (exportKey a ≤ exportKey b))

instance : IsTotal File exportLe := ⟨fun a b => le_total (exportKey a) (exportKey b)⟩

instance : IsTrans File exportLe := ⟨fun _ _ _ h h' => le_trans h h'⟩

/-- The list of files `process_export_job` iterates over, in order. -/
def export_selection (files : List File) : List File :=
  List.insertionSort exportLe (files.filter exportPred)

/-- Modelled from the spec (for comparison only): the ordering key
`coalesce(final_timestamp, detected_timestamp, NULL)` that the spec claims
the export query sorts by. -/
def specCoalesceKey (f : File) : Option Int :=
  match f.final_timestamp with
  | some v => some v
  | none => f.detected_timestamp

/-! ## Import job error-threshold halt (src/app/tasks.py)

`ERROR_THRESHOLD = 0.10` and `MIN_SAMPLE_SIZE = 10`.  The float comparison
`errors / processed > 0.10` coincides with the exact rational comparison
for all feasible counter values, so the rational form is used. -/

def ERROR_THRESHOLD : ℚ := 1 / 10

def MIN_SAMPLE_SIZE : Nat := 10

/-- `_should_halt_job` (tasks.py lines 46-61). -/
def should_halt_job (processed errors : Nat) (threshold : ℚ)
    (min_sample : Nat) : Bool :=
  if processed < min_sample then false
  else (errors : ℚ) / (processed : ℚ) > threshold

/-- The result-consumption loop of `process_import_job` (tasks.py lines
282-308) restricted to the state the halt decision reads: each arriving
result is counted, an error result additionally increments the error count
and — only then — the threshold is checked; on halt the loop returns at
once, leaving the remaining results unconsumed.  Returns
`(processed, errors, halted, unconsumed results)`. -/
def run_import_results : Nat → Nat → List Bool → Nat × Nat × Bool × List Bool
  | processed, errors, [] => (processed, errors, false, [])
  | processed, errors, isError :: rest =>
    let p := processed + 1
    let e := if isError then errors + 1 else errors
    if isError ∧ should_halt_job p e ERROR_THRESHOLD MIN_SAMPLE_SIZE then
      (p, e, true, rest)
    else run_import_results p e rest

/-! ## Confidence engine (src/app/lib/confidence.py)

A Python `datetime` is modelled by its UTC instant in seconds (`t`)
together with its calendar year (`year`); the code reads `.year` only in
the min-year filter, and compares, subtracts, and tests equality of
datetimes elsewhere — all functions of the instant. -/

structure Cand where
  year : Int
  t : Int
  source : String
  deriving Repr, DecidableEq

inductive ConfidenceLevel where
  | none
  | low
  | medium
  | high
  deriving Repr, DecidableEq

/-- `SOURCE_WEIGHTS` (confidence.py lines 18-26) with the `.get(·, 0)`
default. -/
def sourceWeight (source : String) : Nat :=
  if source = "EXIF:DateTimeOriginal" then 10
  else if source = "EXIF:CreateDate" then 8
  else if source = "QuickTime:CreateDate" then 7
  else if source = "EXIF:ModifyDate" then 5
  else if source = "filename_datetime" then 3
  else if source = "filename_date" then 2
  else if source = "File:FileModifyDate" then 1
  else 0

def validCandidates (min_year : Int) (cands : List Cand) : List Cand :=
  cands.filter (fun c => min_year ≤ c.year)

/-- `valid_candidates.sort(key=lambda x: x[0])`: Python's sort is stable,
as is insertion sort. -/
def sortedValidCandidates (min_year : Int) (cands : List Cand) : List Cand :=
  List.insertionSort (fun a b => a.t ≤ b.t) (validCandidates min_year cands)

/-- The selected (earliest) candidate: head of the sorted survivors. -/
def chosenCandidate (min_year : Int) (cands : List Cand) : Option Cand :=
  (sortedValidCandidates min_year cands).head?

/-- Size of the agreement cluster: survivors within 30 seconds of the
selected instant (the selected candidate itself included). -/
def agreementCount (min_year : Int) (cands : List Cand) (sel : Cand) : Nat :=
  ((sortedValidCandidates min_year cands).filter
    (fun c => |c.t - sel.t| ≤ 30)).length

/-- The confidence branch of `calculate_confidence` (confidence.py lines
102-110). -/
def confidenceFor (min_year : Int) (cands : List Cand) (sel : Cand) :
    ConfidenceLevel :=
  let w := sourceWeight sel.source
  let k := agreementCount min_year cands sel
  if 8 ≤ w ∧ 1 < k then .high
  else if 5 ≤ w ∨ 1 < k then .medium
  else .low

/-- `calculate_confidence` (confidence.py lines 66-116): returns the
selected instant (or `none`), the confidence level, and the original
candidate list. -/
def calculate_confidence (timestamp_candidates : List Cand)
    (min_year : Int) : Option Int × ConfidenceLevel × List Cand :=
  match timestamp_candidates with
  | [] => (none, .none, [])
  | _ =>
    match chosenCandidate min_year timestamp_candidates with
    | none => (none, .none, timestamp_candidates)
    | some sel =>
      (some sel.t, confidenceFor min_year timestamp_candidates sel,
        timestamp_candidates)

/-- The `next((source for dt, source in timestamp_candidates if dt ==
selected_dt), 'unknown')` generator in `process_single_file`
(src/app/lib/processing.py lines 204-211): first candidate, in original
list order, whose instant equals the selected one. -/
def findSourceFor (selected : Int) : List Cand → Option String
  | [] => none
  | c :: cs => if c.t = selected then some c.source else findSourceFor selected cs

/-- `timestamp_source` as stored by `process_single_file`: the first
matching candidate's source tag, `'unknown'` if none matches, `'none'`
when no timestamp was selected. -/
def timestampSourceFor (timestamp_candidates : List Cand)
    (min_year : Int) : String :=
  match (calculate_confidence timestamp_candidates min_year).1 with
  | some selected => (findSourceFor selected timestamp_candidates).getD "unknown"
  | none => "none"

/-! ## Duplicate quality recommendation (src/app/lib/duplicates.py)

A file dict as consumed by `recommend_best_duplicate`: an `id`, the
rounded megapixel resolution (nullable), the byte size, and the format
string (nullable).  Scores are exact rationals. -/

structure FileDict where
  id : Nat
  resolution_mp : Option ℚ
  file_size_bytes : Nat
  format : Option String
  deriving Repr, DecidableEq

/-- `FORMAT_MULTIPLIERS` (duplicates.py lines 16-31). -/
def FORMAT_MULTIPLIERS : List (String × ℚ) :=
  [("x-canon-cr2", 13/10), ("x-nikon-nef", 13/10), ("x-sony-arw", 13/10),
   ("x-adobe-dng", 13/10), ("x-olympus-orf", 13/10),
   ("x-panasonic-rw2", 13/10), ("x-fuji-raf", 13/10), ("x-dcraw", 13/10),
   ("cr2", 13/10), ("nef", 13/10), ("arw", 13/10), ("dng", 13/10),
   ("orf", 13/10), ("rw2", 13/10), ("raf", 13/10),
   ("png", 11/10), ("tiff", 11/10), ("bmp", 11/10),
   ("jpeg", 1), ("jpg", 1),
   ("webp", 9/10), ("heic", 9/10), ("heif", 9/10), ("avif", 9/10)]

/-- `FORMAT_MULTIPLIERS.get(fmt, 1.0)`. -/
def formatMultiplier (fmt : String) : ℚ :=
  ((FORMAT_MULTIPLIERS.find? (fun p => p.1 = fmt)).map Prod.snd).getD 1

/-- The per-file score of `recommend_best_duplicate` (duplicates.py lines
96-107): `(resolution_mp * 1_000_000 + file_size_bytes) * format_mult`, or
`file_size_bytes * format_mult` when the resolution is absent; the format
key is lower-cased with `''` for `None`. -/
def qualityScore (f : FileDict) : ℚ :=
  let fmt := (f.format.getD "").toLower
  let format_mult := formatMultiplier fmt
  match f.resolution_mp with
  | some r => (r * 1000000 + (f.file_size_bytes : ℚ)) * format_mult
  | none => (f.file_size_bytes : ℚ) * format_mult

/-- The selection loop of `recommend_best_duplicate`: keep the first file
whose score strictly exceeds the best so far (initially `-1`). -/
def recommendAux : List FileDict → Option Nat → ℚ → Option Nat
  | [], best, _ => best
  | f :: fs, best, best_score =>
    if best_score < qualityScore f then recommendAux fs (some f.id) (qualityScore f)
    else recommendAux fs best best_score

/-- `recommend_best_duplicate` (duplicates.py lines 73-112). -/
def recommend_best_duplicate (files : List FileDict) : Option Nat :=
  recommendAux files none (-1)

/-! # Helper lemmas -/

theorem popCountAux_congr : ∀ f1 f2 n, n ≤ f1 → n ≤ f2 →
    popCountAux f1 n = popCountAux f2 n := by
  intro f1
  induction f1 with
  | zero =>
    intro f2 n h1 _
    have hn : n = 0 := Nat.le_zero.mp h1
    subst hn
    cases f2 <;> simp [popCountAux]
  | succ f ih =>
    intro f2 n h1 h2
    by_cases hn : n = 0
    · subst hn
      cases f2 <;> simp [popCountAux]
    · have hf2 : ∃ f2', f2 = f2' + 1 := ⟨f2 - 1, by omega⟩
      obtain ⟨f2', rfl⟩ := hf2
      simp only [popCountAux, hn, if_false]
      congr 1
      exact ih f2' (n / 2) (by omega) (by omega)

theorem popCount_unfold (n : Nat) :
    popCount n = if n = 0 then 0 else n % 2 + popCount (n / 2) := by
  by_cases hn : n = 0
  · subst hn; simp [popCount, popCountAux]
  · have hn' : ∃ m, n = m + 1 := ⟨n - 1, by omega⟩
    obtain ⟨m, rfl⟩ := hn'
    simp only [hn, if_false, popCount, popCountAux]
    congr 1
    exact popCountAux_congr m ((m + 1) / 2) ((m + 1) / 2) (by omega) (by omega)

theorem popCount_eq_zero_iff (n : Nat) : popCount n = 0 ↔ n = 0 := by
  induction n using Nat.strong_induction_on with
  | _ n ih =>
    rw [popCount_unfold]
    by_cases h : n = 0
    · simp [h]
    · simp only [h, if_false, iff_false]
      intro hsum
      have h2 : n % 2 = 0 := by omega
      have h3 : popCount (n / 2) = 0 := by omega
      have h4 : n / 2 = 0 := (ih (n / 2) (by omega)).mp h3
      omega

theorem popCount_le_of_lt_two_pow : ∀ k n, n < 2 ^ k → popCount n ≤ k := by
  intro k
  induction k with
  | zero =>
    intro n h
    have : n = 0 := by simpa using h
    subst this
    simp [popCount_unfold]
  | succ k ih =>
    intro n h
    rw [popCount_unfold]
    by_cases hn : n = 0
    · simp [hn]
    · simp only [hn, if_false]
      have hdiv : n / 2 < 2 ^ k := by
        rw [pow_succ] at h
        omega
      have := ih (n / 2) hdiv
      omega

theorem xorAbs_comm (a b : Int) : xorAbs a b = xorAbs b a := by
  unfold xorAbs
  by_cases ha : 0 ≤ a <;> by_cases hb : 0 ≤ b <;>
    simp [ha, hb, Nat.xor_comm]

theorem xorAbs_eq_zero_iff (a b : Int) : xorAbs a b = 0 ↔ a = b := by
  unfold xorAbs
  by_cases ha : 0 ≤ a <;> by_cases hb : 0 ≤ b <;> simp only [ha, hb, if_true, if_false]
  · rw [Nat.xor_eq_zero]
    omega
  · constructor
    · intro h; omega
    · intro h; omega
  · constructor
    · intro h; omega
    · intro h; omega
  · rw [Nat.xor_eq_zero]
    omega

theorem xorAbs_lt_two_pow (a b : Int) (ha : 0 ≤ a) (hb : 0 ≤ b)
    (ha64 : a.natAbs < 2 ^ 64) (hb64 : b.natAbs < 2 ^ 64) :
    xorAbs a b < 2 ^ 64 := by
  unfold xorAbs
  simp only [ha, hb, if_true]
  exact Nat.xor_lt_two_pow ha64 hb64

theorem mark_duplicate_groups_getD (files : List File) (i : Nat)
    (h : i < files.length) :
    (mark_duplicate_groups files).getD i default =
      (match (files.getD i default).file_hash_sha256 with
       | none => files.getD i default
       | some hsh =>
         if 2 ≤ files.countP (fun g => g.file_hash_sha256 = some hsh) then
           { files.getD i default with
             exact_group_id := some hsh
             exact_group_confidence := some "high" }
         else files.getD i default) := by
  unfold mark_duplicate_groups
  rw [List.getD_eq_getElem?_getD, List.getElem?_map,
    List.getElem?_eq_getElem h]
  rw [List.getD_eq_getElem?_getD, List.getElem?_eq_getElem h]
  rfl

theorem should_halt_job_eq (p e : Nat) :
    should_halt_job p e ERROR_THRESHOLD MIN_SAMPLE_SIZE =
      decide (10 ≤ p ∧ p < 10 * e) := by
  unfold should_halt_job ERROR_THRESHOLD MIN_SAMPLE_SIZE
  by_cases hp : p < 10
  · rw [if_pos hp]
    have : ¬ (10 ≤ p ∧ p < 10 * e) := by omega
    simp [this]
  · rw [if_neg hp]
    rw [decide_eq_decide]
    have hp0 : (0 : ℚ) < (p : ℚ) := by
      have : (10 : ℚ) ≤ (p : ℚ) := by exact_mod_cast Nat.not_lt.mp hp
      linarith
    rw [gt_iff_lt, div_lt_div_iff₀ (by norm_num) hp0]
    constructor
    · intro h
      refine ⟨Nat.not_lt.mp hp, ?_⟩
      have h2 : (p : ℚ) < (e : ℚ) * 10 := by linarith
      have h3 : p < e * 10 := by exact_mod_cast h2
      omega
    · intro h
      have h2 : p < e * 10 := by omega
      have h3 : (p : ℚ) < (e : ℚ) * 10 := by exact_mod_cast h2
      linarith

theorem calculate_confidence_eq (cands : List Cand) (min_year : Int) :
    calculate_confidence cands min_year =
      match chosenCandidate min_year cands with
      | none => (none, ConfidenceLevel.none, cands)
      | some sel => (some sel.t, confidenceFor min_year cands sel, cands) := by
  cases cands with
  | nil => rfl
  | cons c cs => rfl

theorem chosenCandidate_eq_none_iff (min_year : Int) (cands : List Cand) :
    chosenCandidate min_year cands = none ↔
      validCandidates min_year cands = [] := by
  unfold chosenCandidate sortedValidCandidates
  rw [List.head?_eq_none_iff]
  constructor
  · intro h
    have hlen := (List.perm_insertionSort (fun a b : Cand => a.t ≤ b.t)
      (validCandidates min_year cands)).length_eq
    rw [h] at hlen
    exact List.eq_nil_of_length_eq_zero hlen.symm
  · intro h
    rw [h]
    rfl

theorem chosenCandidate_mem (min_year : Int) (cands : List Cand) (sel : Cand)
    (h : chosenCandidate min_year cands = some sel) : sel ∈ cands := by
  unfold chosenCandidate sortedValidCandidates at h
  have h1 : sel ∈ List.insertionSort (fun a b : Cand => a.t ≤ b.t)
      (validCandidates min_year cands) :=
    List.mem_of_mem_head? (by rw [h]; exact rfl)
  have h2 : sel ∈ validCandidates min_year cands :=
    (List.perm_insertionSort (fun a b : Cand => a.t ≤ b.t)
      (validCandidates min_year cands)).subset h1
  exact (List.mem_filter.mp h2).1

theorem findSourceFor_first : ∀ (l : List Cand) (t : Int),
    (∃ c ∈ l, c.t = t) →
    ∃ i, ∃ hi : i < l.length, (l.get ⟨i, hi⟩).t = t ∧
      findSourceFor t l = some (l.get ⟨i, hi⟩).source ∧
      ∀ j, j < i → ∀ hjl : j < l.length, (l.get ⟨j, hjl⟩).t ≠ t := by
  intro l
  induction l with
  | nil =>
    intro t h
    obtain ⟨c, hc, _⟩ := h
    exact absurd hc (List.not_mem_nil c)
  | cons c cs ih =>
    intro t h
    by_cases hc : c.t = t
    · refine ⟨0, by simp, by simpa using hc, ?_, ?_⟩
      · simp [findSourceFor, hc]
      · intro j hj _
        omega
    · have hcs : ∃ c' ∈ cs, c'.t = t := by
        obtain ⟨c', hc', ht'⟩ := h
        rcases List.mem_cons.mp hc' with rfl | hmem
        · exact absurd ht' hc
        · exact ⟨c', hmem, ht'⟩
      obtain ⟨i, hi, hit, hfind, hfirst⟩ := ih t hcs
      refine ⟨i + 1, by simpa using Nat.succ_lt_succ hi, by simpa using hit, ?_, ?_⟩
      · simpa [findSourceFor, hc] using hfind
      · intro j hj hjl
        cases j with
        | zero => simpa using hc
        | succ j' =>
          have : j' < i := by omega
          simpa using hfirst j' this (by simpa using hjl)

theorem getD_set_set (files : List File) (i j k : Nat) (fa' fb' : File) :
    ((files.set i fa').set j fb').getD k default =
      if j = k ∧ j < files.length then fb'
      else if i = k ∧ i < files.length then fa'
      else files.getD k default := by
  rw [List.getD_eq_getElem?_getD, List.getElem?_set, List.getElem?_set]
  simp only [List.length_set]
  rcases eq_or_ne j k with rfl | h1
  · by_cases hk : j < files.length
    · simp [hk]
    · rcases eq_or_ne i j with rfl | h3
      · simp [hk, List.getD_eq_getElem?_getD,
          List.getElem?_eq_none (Nat.le_of_not_lt hk)]
      · simp [hk, h3, List.getD_eq_getElem?_getD,
          List.getElem?_eq_none (Nat.le_of_not_lt hk)]
  · rcases eq_or_ne i k with rfl | h3
    · by_cases hk : i < files.length
      · simp [h1, hk]
      · simp [h1, hk, List.getD_eq_getElem?_getD,
          List.getElem?_eq_none (Nat.le_of_not_lt hk)]
    · simp [h1, h3, List.getD_eq_getElem?_getD]

theorem merge_exact_sets_ids (st : PState) (i j d : Nat)
    (hi : i < st.files.length) (hj : j < st.files.length) :
    ((merge_into_exact_group st i j d).files.getD i default).exact_group_id.isSome = true ∧
    ((merge_into_exact_group st i j d).files.getD j default).exact_group_id.isSome = true := by
  unfold merge_into_exact_group
  constructor <;> dsimp only <;> rw [getD_set_set] <;> split_ifs <;>
    simp_all

theorem merge_similar_sets_ids (st : PState) (i j d : Nat)
    (hi : i < st.files.length) (hj : j < st.files.length) :
    ((merge_into_similar_group st i j d).files.getD i default).similar_group_id.isSome = true ∧
    ((merge_into_similar_group st i j d).files.getD j default).similar_group_id.isSome = true := by
  unfold merge_into_similar_group
  constructor <;> dsimp only <;> rw [getD_set_set] <;> split_ifs <;>
    simp_all

theorem merge_exact_length (st : PState) (i j d : Nat) :
    (merge_into_exact_group st i j d).files.length = st.files.length := by
  unfold merge_into_exact_group
  simp [List.length_set]

theorem merge_similar_length (st : PState) (i j d : Nat) :
    (merge_into_similar_group st i j d).files.length = st.files.length := by
  unfold merge_into_similar_group
  simp [List.length_set]

theorem merge_exact_fields (st : PState) (i j d k : Nat) :
    ((merge_into_exact_group st i j d).files.getD k default).file_hash_perceptual =
      ((st.files.getD k default)).file_hash_perceptual ∧
    ((merge_into_exact_group st i j d).files.getD k default).similar_group_id =
      ((st.files.getD k default)).similar_group_id := by
  unfold merge_into_exact_group
  constructor <;> dsimp only <;> rw [getD_set_set] <;> split_ifs with h1 h2 <;>
    simp_all

theorem merge_similar_fields (st : PState) (i j d k : Nat) :
    ((merge_into_similar_group st i j d).files.getD k default).file_hash_perceptual =
      ((st.files.getD k default)).file_hash_perceptual ∧
    ((merge_into_similar_group st i j d).files.getD k default).exact_group_id =
      ((st.files.getD k default)).exact_group_id := by
  unfold merge_into_similar_group
  constructor <;> dsimp only <;> rw [getD_set_set] <;> split_ifs with h1 h2 <;>
    simp_all

theorem merge_exact_mono (st : PState) (i j d k : Nat)
    (h : ((st.files.getD k default)).exact_group_id.isSome = true) :
    ((merge_into_exact_group st i j d).files.getD k default).exact_group_id.isSome = true := by
  unfold merge_into_exact_group
  dsimp only
  rw [getD_set_set]
  split_ifs <;> simp_all

theorem merge_similar_mono (st : PState) (i j d k : Nat)
    (h : ((st.files.getD k default)).similar_group_id.isSome = true) :
    ((merge_into_similar_group st i j d).files.getD k default).similar_group_id.isSome = true := by
  unfold merge_into_similar_group
  dsimp only
  rw [getD_set_set]
  split_ifs <;> simp_all

theorem analyzePairStep_length (st : PState) (p : Nat × Nat) :
    (analyzePairStep st p).files.length = st.files.length := by
  unfold analyzePairStep
  dsimp only
  split
  · split
    · exact merge_exact_length st p.1 p.2 _
    · exact merge_similar_length st p.1 p.2 _
    · rfl
  · rfl

theorem analyzePairStep_hash (st : PState) (p : Nat × Nat) (k : Nat) :
    ((analyzePairStep st p).files.getD k default).file_hash_perceptual =
      ((st.files.getD k default)).file_hash_perceptual := by
  unfold analyzePairStep
  dsimp only
  split
  · split
    · exact (merge_exact_fields st p.1 p.2 _ k).1
    · exact (merge_similar_fields st p.1 p.2 _ k).1
    · rfl
  · rfl

theorem analyzePairStep_exact_mono (st : PState) (p : Nat × Nat) (k : Nat)
    (h : ((st.files.getD k default)).exact_group_id.isSome = true) :
    ((analyzePairStep st p).files.getD k default).exact_group_id.isSome = true := by
  unfold analyzePairStep
  dsimp only
  split
  · split
    · exact merge_exact_mono st p.1 p.2 _ k h
    · rw [(merge_similar_fields st p.1 p.2 _ k).2]
      exact h
    · exact h
  · exact h

theorem analyzePairStep_similar_mono (st : PState) (p : Nat × Nat) (k : Nat)
    (h : ((st.files.getD k default)).similar_group_id.isSome = true) :
    ((analyzePairStep st p).files.getD k default).similar_group_id.isSome = true := by
  unfold analyzePairStep
  dsimp only
  split
  · split
    · rw [(merge_exact_fields st p.1 p.2 _ k).2]
      exact h
    · exact merge_similar_mono st p.1 p.2 _ k h
    · exact h
  · exact h

theorem foldl_analyze_length (ps : List (Nat × Nat)) : ∀ (st : PState),
    (ps.foldl analyzePairStep st).files.length = st.files.length := by
  induction ps with
  | nil => intro st; rfl
  | cons p ps ih =>
    intro st
    rw [List.foldl_cons, ih (analyzePairStep st p), analyzePairStep_length]

theorem foldl_analyze_hash (ps : List (Nat × Nat)) : ∀ (st : PState) (k : Nat),
    (((ps.foldl analyzePairStep st).files.getD k default)).file_hash_perceptual =
      ((st.files.getD k default)).file_hash_perceptual := by
  induction ps with
  | nil => intro st k; rfl
  | cons p ps ih =>
    intro st k
    rw [List.foldl_cons, ih (analyzePairStep st p) k, analyzePairStep_hash]

theorem foldl_analyze_exact_mono (ps : List (Nat × Nat)) : ∀ (st : PState) (k : Nat),
    ((st.files.getD k default)).exact_group_id.isSome = true →
    (((ps.foldl analyzePairStep st).files.getD k default)).exact_group_id.isSome = true := by
  induction ps with
  | nil => intro st k h; exact h
  | cons p ps ih =>
    intro st k h
    rw [List.foldl_cons]
    exact ih (analyzePairStep st p) k (analyzePairStep_exact_mono st p k h)

theorem foldl_analyze_similar_mono (ps : List (Nat × Nat)) : ∀ (st : PState) (k : Nat),
    ((st.files.getD k default)).similar_group_id.isSome = true →
    (((ps.foldl analyzePairStep st).files.getD k default)).similar_group_id.isSome = true := by
  induction ps with
  | nil => intro st k h; exact h
  | cons p ps ih =>
    intro st k h
    rw [List.foldl_cons]
    exact ih (analyzePairStep st p) k (analyzePairStep_similar_mono st p k h)

theorem analyzePairStep_classifies (st : PState) (i j : Nat)
    (hi : i < st.files.length) (hj : j < st.files.length)
    (hha : ¬ strFalsy (st.files.getD i default).file_hash_perceptual = true)
    (hhb : ¬ strFalsy (st.files.getD j default).file_hash_perceptual = true) :
    (pairAction (hamming_distance (st.files.getD i default).file_hash_perceptual
        (st.files.getD j default).file_hash_perceptual) = .duplicate →
      ((analyzePairStep st (i, j)).files.getD i default).exact_group_id.isSome = true ∧
      ((analyzePairStep st (i, j)).files.getD j default).exact_group_id.isSome = true) ∧
    (pairAction (hamming_distance (st.files.getD i default).file_hash_perceptual
        (st.files.getD j default).file_hash_perceptual) = .similar →
      ((analyzePairStep st (i, j)).files.getD i default).similar_group_id.isSome = true ∧
      ((analyzePairStep st (i, j)).files.getD j default).similar_group_id.isSome = true) := by
  unfold analyzePairStep
  rw [if_pos ⟨hha, hhb⟩]
  dsimp only
  rcases hpa : pairAction (hamming_distance
      (st.files.getD i default).file_hash_perceptual
      (st.files.getD j default).file_hash_perceptual) with _ | _ | _
  · exact ⟨fun _ => merge_exact_sets_ids st i j _ hi hj, fun h => by simp at h⟩
  · exact ⟨fun h => by simp at h, fun _ => merge_similar_sets_ids st i j _ hi hj⟩
  · exact ⟨fun h => by simp at h, fun h => by simp at h⟩

theorem clusterScan_subset (files : List File) (thr : Int) :
    ∀ (rest cur : List Nat) (c : List Nat) (i : Nat),
      c ∈ clusterScan files thr cur rest → i ∈ c → i ∈ cur ∨ i ∈ rest := by
  intro rest
  induction rest with
  | nil =>
    intro cur c i hc hi
    unfold clusterScan at hc
    split_ifs at hc with h
    · rcases List.mem_singleton.mp hc with rfl
      exact Or.inl hi
    · exact absurd hc (List.not_mem_nil c)
  | cons x rest ih =>
    intro cur c i hc hi
    unfold clusterScan at hc
    dsimp only at hc
    by_cases h1 : tsOf files x - tsOf files (cur.getLast?.getD 0) ≤ thr
    · rw [if_pos h1] at hc
      rcases ih (cur ++ [x]) c i hc hi with hl | hr
      · rcases List.mem_append.mp hl with hl' | hl'
        · exact Or.inl hl'
        · exact Or.inr (List.mem_cons.mpr (Or.inl (List.mem_singleton.mp hl')))
      · exact Or.inr (List.mem_cons.mpr (Or.inr hr))
    · rw [if_neg h1] at hc
      rcases List.mem_append.mp hc with hl | hr
      · split_ifs at hl with h2
        · rcases List.mem_singleton.mp hl with rfl
          exact Or.inl hi
        · exact absurd hl (List.not_mem_nil c)
      · rcases ih [x] c i hr hi with hl | hrr
        · exact Or.inr (List.mem_cons.mpr (Or.inl (List.mem_singleton.mp hl)))
        · exact Or.inr (List.mem_cons.mpr (Or.inr hrr))

theorem cluster_member_timestamped (files : List File) (thr : Int)
    (c : List Nat) (i : Nat) (hc : c ∈ cluster_by_timestamp files thr)
    (hi : i ∈ c) :
    ((files.getD i default).detected_timestamp).isSome = true := by
  unfold cluster_by_timestamp at hc
  dsimp only at hc
  split_ifs at hc with h1
  · exact absurd hc (List.not_mem_nil c)
  · set timestamped := (List.range files.length).filter
      (fun i => ((files.getD i default).detected_timestamp).isSome) with htdef
    have hsub : ∀ k, k ∈ timestamped →
        ((files.getD k default).detected_timestamp).isSome = true := by
      intro k hk
      exact (List.mem_filter.mp hk).2
    rcases hsort : List.insertionSort
        (fun a b => tsOf files a ≤ tsOf files b) timestamped with _ | ⟨i0, rest⟩
    · rw [hsort] at hc
      exact absurd hc (List.not_mem_nil c)
    · rw [hsort] at hc
      have hmemsort : ∀ k, k ∈ i0 :: rest → k ∈ timestamped := by
        intro k hk
        have := (List.perm_insertionSort
          (fun a b => tsOf files a ≤ tsOf files b) timestamped).subset
        rw [hsort] at this
        exact this hk
      rcases clusterScan_subset files thr rest [i0] c i hc hi with hl | hr
      · exact hsub i (hmemsort i (List.mem_cons.mpr
          (Or.inl (List.mem_singleton.mp hl))))
      · exact hsub i (hmemsort i (List.mem_cons.mpr (Or.inr hr)))

theorem formatMultiplier_pos (fmt : String) : 0 < formatMultiplier fmt := by
  unfold formatMultiplier
  rcases hf : FORMAT_MULTIPLIERS.find? (fun p => p.1 = fmt) with _ | p
  · rw [hf]
    norm_num
  · rw [hf]
    have hmem := List.mem_of_find?_eq_some hf
    show (0 : ℚ) < p.2
    fin_cases hmem <;> norm_num

theorem qualityScore_nonneg (f : FileDict)
    (h : ∀ r, f.resolution_mp = some r → 0 ≤ r) : 0 ≤ qualityScore f := by
  unfold qualityScore
  rcases hr : f.resolution_mp with _ | r
  · dsimp only
    exact mul_nonneg (by positivity) (le_of_lt (formatMultiplier_pos _))
  · dsimp only
    have hr0 : 0 ≤ r := h r hr
    have hbase : 0 ≤ r * 1000000 + (f.file_size_bytes : ℚ) := by positivity
    exact mul_nonneg hbase (le_of_lt (formatMultiplier_pos _))

theorem recommendAux_spec : ∀ (fs : List FileDict) (best : Option Nat) (bs : ℚ),
    (recommendAux fs best bs = best ∧ ∀ f ∈ fs, qualityScore f ≤ bs) ∨
    (∃ f ∈ fs, recommendAux fs best bs = some f.id ∧ bs < qualityScore f ∧
      ∀ g ∈ fs, qualityScore g ≤ qualityScore f) := by
  intro fs
  induction fs with
  | nil =>
    intro best bs
    left
    exact ⟨rfl, by simp⟩
  | cons f fs ih =>
    intro best bs
    unfold recommendAux
    by_cases hf : bs < qualityScore f
    · rw [if_pos hf]
      rcases ih (some f.id) (qualityScore f) with ⟨heq, hall⟩ | ⟨g, hg, heq, hlt, hall⟩
      · right
        refine ⟨f, by simp, heq, hf, ?_⟩
        intro g hg
        rcases List.mem_cons.mp hg with rfl | hmem
        · exact le_refl _
        · exact hall g hmem
      · right
        refine ⟨g, List.mem_cons.mpr (Or.inr hg), heq, lt_trans hf hlt, ?_⟩
        intro g' hg'
        rcases List.mem_cons.mp hg' with rfl | hmem
        · exact le_of_lt hlt
        · exact hall g' hmem
    · rw [if_neg hf]
      rcases ih best bs with ⟨heq, hall⟩ | ⟨g, hg, heq, hlt, hall⟩
      · left
        refine ⟨heq, ?_⟩
        intro g hg
        rcases List.mem_cons.mp hg with rfl | hmem
        · exact not_lt.mp hf
        · exact hall g hmem
      · right
        refine ⟨g, List.mem_cons.mpr (Or.inr hg), heq, hlt, ?_⟩
        intro g' hg'
        rcases List.mem_cons.mp hg' with rfl | hmem
        · exact le_trans (not_lt.mp hf) (le_of_lt hlt)
        · exact hall g' hmem

/-! # Claim theorems -/

/-- C9 counterexample: `hamming_distance` applied to two perfectly valid
17-digit hex strings returns 68, which is not between 0 and 64 — the
claimed range only holds for 64-bit (≤ 16 hex digit) values. -/
theorem C9_counterexample :
    hamming_distance (some "fffffffffffffffff") (some "00000000000000000") = 68 ∧
    64 < 68 := by
  constructor
  · decide
  · decide

/-- C9 (amended): `hamming_distance` is total and symmetric; on inputs that
parse as hex integers it equals the popcount of the two's-complement XOR,
and is 0 exactly when the two strings denote the same integer value; for
64-bit values (in particular any hash of at most 16 hex digits) the result
is at most 64; `None`, empty, and unparseable inputs give the sentinel 999.
-/
theorem C9_hamming_distance_properties :
    (∀ h1 h2, hamming_distance h1 h2 = hamming_distance h2 h1) ∧
    (∀ s1 s2 a b, parseHexInt s1 = some a → parseHexInt s2 = some b →
      s1.data ≠ [] → s2.data ≠ [] →
      hamming_distance (some s1) (some s2) = popCount (xorAbs a b) ∧
      (hamming_distance (some s1) (some s2) = 0 ↔ a = b)) ∧
    (∀ s1 s2 a b, parseHexInt s1 = some a → parseHexInt s2 = some b →
      s1.data ≠ [] → s2.data ≠ [] → 0 ≤ a → 0 ≤ b →
      a.natAbs < 2 ^ 64 → b.natAbs < 2 ^ 64 →
      hamming_distance (some s1) (some s2) ≤ 64) ∧
    (∀ h, hamming_distance none h = 999 ∧ hamming_distance h none = 999) ∧
    (∀ s h, parseHexInt s = none → hamming_distance (some s) h = 999) := by
  have hval : ∀ s1 s2 a b, parseHexInt s1 = some a → parseHexInt s2 = some b →
      s1.data ≠ [] → s2.data ≠ [] →
      hamming_distance (some s1) (some s2) = popCount (xorAbs a b) := by
    intro s1 s2 a b hp1 hp2 hs1 hs2
    unfold hamming_distance
    rw [if_neg]
    · simp [hp1, hp2]
    · simp [strFalsy, hs1, hs2]
  refine ⟨?_, ?_, ?_, ?_, ?_⟩
  · intro h1 h2
    unfold hamming_distance
    by_cases hf1 : strFalsy h1 = true
    · simp [hf1]
    · by_cases hf2 : strFalsy h2 = true
      · simp [hf2]
      · rw [if_neg (by simp [hf1, hf2]), if_neg (by simp [hf1, hf2])]
        rcases hp1 : parseHexInt (h1.getD "") with _ | a <;>
          rcases hp2 : parseHexInt (h2.getD "") with _ | b <;>
          simp [hp1, hp2, xorAbs_comm]
  · intro s1 s2 a b hp1 hp2 hs1 hs2
    refine ⟨hval s1 s2 a b hp1 hp2 hs1 hs2, ?_⟩
    rw [hval s1 s2 a b hp1 hp2 hs1 hs2, popCount_eq_zero_iff, xorAbs_eq_zero_iff]
  · intro s1 s2 a b hp1 hp2 hs1 hs2 ha hb ha64 hb64
    rw [hval s1 s2 a b hp1 hp2 hs1 hs2]
    exact popCount_le_of_lt_two_pow 64 _ (xorAbs_lt_two_pow a b ha hb ha64 hb64)
  · intro h
    constructor
    · unfold hamming_distance
      rw [if_pos]
      simp [strFalsy]
    · unfold hamming_distance
      rw [if_pos]
      simp [strFalsy]
  · intro s h hp
    unfold hamming_distance
    by_cases hf : strFalsy (some s) = true ∨ strFalsy h = true
    · rw [if_pos hf]
    · rw [if_neg hf]
      simp only [Option.getD_some, hp]

/-- C9 witness: the properties applied at the concrete 8-bit hashes `"ff"`
and `"f0"` (values 255 and 240, XOR popcount 4). -/
theorem C9_witness :
    hamming_distance (some "ff") (some "f0") = popCount (xorAbs 255 240) ∧
    hamming_distance (some "ff") (some "f0") ≤ 64 ∧
    hamming_distance none (some "ff") = 999 ∧
    hamming_distance (some "zz") (some "ff") = 999 := by
  obtain ⟨_hsym, hpair, hle, hnone, hbad⟩ := C9_hamming_distance_properties
  have h1 : parseHexInt "ff" = some 255 := by decide
  have h2 : parseHexInt "f0" = some 240 := by decide
  have hd1 : ("ff" : String).data ≠ [] := by decide
  have hd2 : ("f0" : String).data ≠ [] := by decide
  refine ⟨(hpair "ff" "f0" 255 240 h1 h2 hd1 hd2).1, ?_, (hnone (some "ff")).1, ?_⟩
  · exact hle "ff" "f0" 255 240 h1 h2 hd1 hd2 (by decide) (by decide)
      (by decide) (by decide)
  · exact hbad "zz" (some "ff") (by decide)

/-- C2 counterexample: two files in one timestamp cluster whose hashes are
at Hamming distance 17 ARE merged into a similar group (the code's similar
band runs to 20, not 16 as claimed; 17 does create a relation). -/
theorem C2_counterexample :
    let fa : File := { (default : File) with
      id := 1
      detected_timestamp := some 0
      file_hash_perceptual := some "0000000000000000" }
    let fb : File := { (default : File) with
      id := 2
      detected_timestamp := some 1
      file_hash_perceptual := some "000000000001ffff" }
    hamming_distance fa.file_hash_perceptual fb.file_hash_perceptual = 17 ∧
    ((analyze_cluster ⟨[fa, fb], 0⟩ [0, 1]).files.getD 0 default).similar_group_id.isSome = true ∧
    ((analyze_cluster ⟨[fa, fb], 0⟩ [0, 1]).files.getD 1 default).similar_group_id.isSome = true := by
  decide

/-- C2 (amended): for every compared pair, Hamming distance at most 5
merges into an exact group, distance 6 to 20 inclusive merges into a
similar group, and only distance 21 or more creates no relation. -/
theorem C2_threshold_classification (d : Nat) :
    (pairAction d = .duplicate ↔ d ≤ 5) ∧
    (pairAction d = .similar ↔ 6 ≤ d ∧ d ≤ 20) ∧
    (pairAction d = .unrelated ↔ 21 ≤ d) := by
  unfold pairAction EXACT_THRESHOLD SIMILAR_THRESHOLD
  split_ifs with h1 h2 <;> refine ⟨?_, ?_, ?_⟩ <;> simp <;> omega

/-- C1: evaluation of `resolve_similar_group` at the failing input.  File 1
is a reviewed member (`reviewed_at` and `final_timestamp` set) of similar
group `"g"`; resolving the group keeping only file 2 marks file 1
discarded but leaves BOTH review fields set, violating the invariant
`discarded ⇒ reviewed_at = null ∧ final_timestamp = null` that every other
discard path maintains. -/
theorem C1_resolve_similar_group_violation :
    let fa : File := { (default : File) with
      id := 1
      similar_group_id := some "g"
      reviewed_at := some 100
      final_timestamp := some 200 }
    let fb : File := { (default : File) with
      id := 2
      similar_group_id := some "g" }
    let r := resolve_similar_group "g" [2] [fa, fb]
    (r.getD 0 default).discarded = true ∧
    (r.getD 0 default).final_timestamp = some 200 ∧
    (r.getD 0 default).reviewed_at = some 100 ∧
    (r.getD 0 default).similar_group_id = none ∧
    (r.getD 1 default).discarded = false := by
  decide

/-- C7 counterexample: after `_mark_duplicate_groups`, the
`exact_group_id` of a 2-member sha256 class is the 64-hex digest itself —
not a 16-hex short random identifier. -/
theorem C7_counterexample :
    let s : String :=
      "e3b0c44298fc1c149afbf4c8996fb92427ae41e4649b934ca495991b7852b855"
    let f1 : File := { (default : File) with
      id := 1
      file_hash_sha256 := some s }
    let f2 : File := { (default : File) with
      id := 2
      file_hash_sha256 := some s }
    let r := mark_duplicate_groups [f1, f2]
    (r.getD 0 default).exact_group_id = some s ∧
    (r.getD 1 default).exact_group_id = some s ∧
    (r.getD 0 default).exact_group_confidence = some "high" ∧
    s.length = 64 ∧ 16 < s.length := by
  decide

/-- C7 (amended): after exact grouping, every file whose sha256 is shared
by at least two files of the job carries `exact_group_id =` that shared
64-hex digest (so all class members share one stable identifier) and
`exact_group_confidence = HIGH`; files with a unique or missing sha256 are
untouched. -/
theorem C7_exact_grouping (files : List File) (i : Nat)
    (h : i < files.length) :
    (∀ hsh, (files.getD i default).file_hash_sha256 = some hsh →
      (2 ≤ files.countP (fun g => g.file_hash_sha256 = some hsh) →
        ((mark_duplicate_groups files).getD i default).exact_group_id = some hsh ∧
        ((mark_duplicate_groups files).getD i default).exact_group_confidence =
          some "high") ∧
      (files.countP (fun g => g.file_hash_sha256 = some hsh) < 2 →
        (mark_duplicate_groups files).getD i default = files.getD i default)) ∧
    ((files.getD i default).file_hash_sha256 = none →
      (mark_duplicate_groups files).getD i default = files.getD i default) := by
  constructor
  · intro hsh hs
    constructor
    · intro hcount
      rw [mark_duplicate_groups_getD files i h, hs]
      simp [hcount]
    · intro hcount
      rw [mark_duplicate_groups_getD files i h, hs]
      simp [Nat.not_le.mpr hcount]
  · intro hs
    rw [mark_duplicate_groups_getD files i h, hs]

/-- C7 witness: the amended statement applied to the two-file job of the
counterexample input. -/
theorem C7_witness :
    let s : String :=
      "e3b0c44298fc1c149afbf4c8996fb92427ae41e4649b934ca495991b7852b855"
    let f1 : File := { (default : File) with
      id := 1
      file_hash_sha256 := some s }
    let f2 : File := { (default : File) with
      id := 2
      file_hash_sha256 := some s }
    ((mark_duplicate_groups [f1, f2]).getD 0 default).exact_group_id = some s ∧
    ((mark_duplicate_groups [f1, f2]).getD 0 default).exact_group_confidence =
      some "high" := by
  intro s f1 f2
  exact ((C7_exact_grouping [f1, f2] 0 (by decide)).1 s (by decide)).1 (by decide)

/-- C5 counterexample: file `a` has no `final_timestamp` and detected
instant 1; file `b` has final instant 2.  `coalesce` puts `a` (key 1)
before `b` (key 2), as the claim requires — but the export query orders by
`final_timestamp` with nulls LAST first, so `b` is exported before `a`. -/
theorem C5_counterexample :
    let fa : File := { (default : File) with
      id := 1
      original_filename := "a"
      detected_timestamp := some 1 }
    let fb : File := { (default : File) with
      id := 2
      original_filename := "b"
      final_timestamp := some 2
      detected_timestamp := some 0 }
    export_selection [fa, fb] = [fb, fa] ∧
    specCoalesceKey fa = some 1 ∧ specCoalesceKey fb = some 2 ∧
    (1 : Int) < 2 := by
  decide

/-- C5 (amended): the export pipeline processes exactly the non-discarded,
non-errored files with null `output_path`, ordered by `final_timestamp`
ascending with nulls last, then `detected_timestamp` ascending with nulls
last, then `original_filename`; in particular every file with a null
`final_timestamp` sorts after every file with one set, regardless of its
`detected_timestamp`. -/
theorem C5_export_selection (files : List File) :
    (∀ f, f ∈ export_selection files ↔ f ∈ files ∧ exportPred f = true) ∧
    List.Sorted exportLe (export_selection files) := by
  constructor
  · intro f
    unfold export_selection
    rw [(List.perm_insertionSort exportLe (files.filter exportPred)).mem_iff,
      List.mem_filter]
  · exact List.sorted_insertionSort exportLe (files.filter exportPred)

/-- C6 counterexample: results arrive as two errors followed by eight
successes.  When the tenth result is consumed, 10 results are processed
and 2 of them errored — the halt predicate holds — yet the job does not
halt (and never will), because the threshold is only consulted when the
result just consumed is itself an error. -/
theorem C6_counterexample :
    run_import_results 0 0
      [true, true, false, false, false, false, false, false, false, false] =
      (10, 2, false, []) ∧
    should_halt_job 10 2 ERROR_THRESHOLD MIN_SAMPLE_SIZE = true := by
  constructor
  · decide
  · rw [should_halt_job_eq]
    decide

/-- C6 (amended): the import loop transitions to HALTED exactly when some
result it consumes is an error and, at that point, at least 10 results
have been processed with an error ratio above 0.10 (the threshold is
checked only on error results); when it halts it stops consuming (the
unconsumed remainder accounts for all files it never submitted results
for), and when it never halts it consumes everything. -/
theorem C6_halt_characterization (results : List Bool) :
    ((run_import_results 0 0 results).2.2.1 = true ↔
      ∃ k, k < results.length ∧ results.getD k false = true ∧
        should_halt_job (k + 1) ((results.take (k + 1)).count true)
          ERROR_THRESHOLD MIN_SAMPLE_SIZE = true) ∧
    ((run_import_results 0 0 results).2.2.1 = false →
      (run_import_results 0 0 results).1 = results.length ∧
      (run_import_results 0 0 results).2.2.2 = []) ∧
    (run_import_results 0 0 results).1 +
      (run_import_results 0 0 results).2.2.2.length = results.length := by
  have main : ∀ (rs : List Bool) (p e : Nat),
      ((run_import_results p e rs).2.2.1 = true ↔
        ∃ k, k < rs.length ∧ rs.getD k false = true ∧
          should_halt_job (p + k + 1) (e + (rs.take (k + 1)).count true)
            ERROR_THRESHOLD MIN_SAMPLE_SIZE = true) ∧
      ((run_import_results p e rs).2.2.1 = false →
        (run_import_results p e rs).1 = p + rs.length ∧
        (run_import_results p e rs).2.2.2 = []) ∧
      (run_import_results p e rs).1 +
        (run_import_results p e rs).2.2.2.length = p + rs.length := by
    intro rs
    induction rs with
    | nil =>
      intro p e
      refine ⟨?_, ?_, ?_⟩ <;> simp [run_import_results]
    | cons r rest ih =>
      intro p e
      cases r with
      | false =>
        have hstep : run_import_results p e (false :: rest) =
            run_import_results (p + 1) e rest := by
          simp [run_import_results]
        rw [hstep]
        obtain ⟨ih1, ih2, ih3⟩ := ih (p + 1) e
        refine ⟨?_, ?_, ?_⟩
        · rw [ih1]
          constructor
          · rintro ⟨k, hk, hget, hhalt⟩
            refine ⟨k + 1, by simpa using Nat.succ_lt_succ hk, by simpa using hget, ?_⟩
            have harg1 : p + (k + 1) + 1 = p + 1 + k + 1 := by omega
            have harg2 : ((false :: rest).take (k + 1 + 1)).count true =
                (rest.take (k + 1)).count true := by
              simp [List.take_succ_cons, List.count_cons]
            rw [harg1, harg2]
            exact hhalt
          · rintro ⟨k, hk, hget, hhalt⟩
            cases k with
            | zero => simp at hget
            | succ j =>
              refine ⟨j, by simpa using hk, by simpa using hget, ?_⟩
              have harg1 : p + 1 + j + 1 = p + (j + 1) + 1 := by omega
              have harg2 : (rest.take (j + 1)).count true =
                  ((false :: rest).take (j + 1 + 1)).count true := by
                simp [List.take_succ_cons, List.count_cons]
              rw [harg1, harg2]
              exact hhalt
        · intro hfalse
          obtain ⟨h1, h2⟩ := ih2 hfalse
          refine ⟨?_, h2⟩
          rw [h1]
          simp only [List.length_cons]
          omega
        · have h3 := ih3
          simp only [List.length_cons]
          omega
      | true =>
        by_cases hh : should_halt_job (p + 1) (e + 1) ERROR_THRESHOLD
            MIN_SAMPLE_SIZE = true
        · have hstep : run_import_results p e (true :: rest) =
              (p + 1, e + 1, true, rest) := by
            simp [run_import_results, hh]
          rw [hstep]
          refine ⟨?_, ?_, ?_⟩
          · simp only [true_iff]
            refine ⟨0, by simp, by simp, ?_⟩
            have harg2 : ((true :: rest).take 1).count true = 1 := by
              simp [List.count_cons]
            simpa [harg2] using hh
          · intro hfalse
            simp at hfalse
          · simp only [List.length_cons]
            omega
        · have hstep : run_import_results p e (true :: rest) =
              run_import_results (p + 1) (e + 1) rest := by
            simp [run_import_results, hh]
          rw [hstep]
          obtain ⟨ih1, ih2, ih3⟩ := ih (p + 1) (e + 1)
          refine ⟨?_, ?_, ?_⟩
          · rw [ih1]
            constructor
            · rintro ⟨k, hk, hget, hhalt⟩
              refine ⟨k + 1, by simpa using Nat.succ_lt_succ hk, by simpa using hget, ?_⟩
              have harg1 : p + (k + 1) + 1 = p + 1 + k + 1 := by omega
              have harg2 : ((true :: rest).take (k + 1 + 1)).count true =
                  (rest.take (k + 1)).count true + 1 := by
                simp [List.take_succ_cons, List.count_cons]
              have harg3 : e + ((rest.take (k + 1)).count true + 1) =
                  e + 1 + (rest.take (k + 1)).count true := by omega
              rw [harg1, harg2, harg3]
              exact hhalt
            · rintro ⟨k, hk, hget, hhalt⟩
              cases k with
              | zero =>
                exfalso
                apply hh
                have harg2 : ((true :: rest).take 1).count true = 1 := by
                  simp [List.count_cons]
                simpa [harg2] using hhalt
              | succ j =>
                refine ⟨j, by simpa using hk, by simpa using hget, ?_⟩
                have harg1 : p + 1 + j + 1 = p + (j + 1) + 1 := by omega
                have harg2 : ((true :: rest).take (j + 1 + 1)).count true =
                    (rest.take (j + 1)).count true + 1 := by
                  simp [List.take_succ_cons, List.count_cons]
                have harg3 : e + 1 + (rest.take (j + 1)).count true =
                    e + ((rest.take (j + 1)).count true + 1) := by omega
                rw [harg1, harg3, ← harg2]
                exact hhalt
          · intro hfalse
            obtain ⟨h1, h2⟩ := ih2 hfalse
            refine ⟨?_, h2⟩
            rw [h1]
            simp only [List.length_cons]
            omega
          · have h3 := ih3
            simp only [List.length_cons]
            omega
  obtain ⟨h1, h2, h3⟩ := main results 0 0
  refine ⟨?_, ?_, ?_⟩
  · rw [h1]
    constructor
    · rintro ⟨k, hk, hget, hhalt⟩
      exact ⟨k, hk, hget, by simpa using hhalt⟩
    · rintro ⟨k, hk, hget, hhalt⟩
      exact ⟨k, hk, hget, by simpa using hhalt⟩
  · intro hfalse
    obtain ⟨ha, hb⟩ := h2 hfalse
    exact ⟨by omega, hb⟩
  · omega

/-- C6 witness: the characterization applied at two concrete traces — one
that halts on its tenth result (an error, ratio 2/10), and one that runs
to completion. -/
theorem C6_witness :
    (run_import_results 0 0
      [false, false, false, false, false, false, false, false, true, true]).2.2.1 =
      true ∧
    (run_import_results 0 0 [false]).1 = 1 := by
  constructor
  · refine (C6_halt_characterization _).1.mpr ⟨9, by decide, by decide, ?_⟩
    rw [should_halt_job_eq]
    decide
  · exact ((C6_halt_characterization [false]).2.1 (by decide)).1

/-- C3 (confirmed): after the year filter, the confidence is NONE (with a
null selected timestamp) exactly when no candidates survive; otherwise,
with `sel` the chosen candidate, it is HIGH iff the chosen source's weight
is at least 8 and more than one surviving candidate lies within 30 seconds
of the chosen instant, MEDIUM iff not HIGH and (weight at least 5 or more
than one agrees), and LOW otherwise. -/
theorem C3_confidence_rules (cands : List Cand) :
    ((calculate_confidence cands 2000).2.1 = ConfidenceLevel.none ↔
      validCandidates 2000 cands = []) ∧
    ((calculate_confidence cands 2000).1 = none ↔
      validCandidates 2000 cands = []) ∧
    (∀ sel, chosenCandidate 2000 cands = some sel →
      (((calculate_confidence cands 2000).2.1 = ConfidenceLevel.high ↔
        8 ≤ sourceWeight sel.source ∧ 1 < agreementCount 2000 cands sel) ∧
       ((calculate_confidence cands 2000).2.1 = ConfidenceLevel.medium ↔
        ¬ (8 ≤ sourceWeight sel.source ∧ 1 < agreementCount 2000 cands sel) ∧
        (5 ≤ sourceWeight sel.source ∨ 1 < agreementCount 2000 cands sel)) ∧
       ((calculate_confidence cands 2000).2.1 = ConfidenceLevel.low ↔
        ¬ (8 ≤ sourceWeight sel.source ∧ 1 < agreementCount 2000 cands sel) ∧
        ¬ (5 ≤ sourceWeight sel.source ∨ 1 < agreementCount 2000 cands sel)))) := by
  rw [calculate_confidence_eq]
  rcases hch : chosenCandidate 2000 cands with _ | sel
  · have hvalid := (chosenCandidate_eq_none_iff 2000 cands).mp hch
    refine ⟨by simp [hvalid], by simp [hvalid], ?_⟩
    intro sel hsel
    exact absurd hsel (by simp)
  · have hvalid : validCandidates 2000 cands ≠ [] := by
      intro hnil
      rw [(chosenCandidate_eq_none_iff 2000 cands).mpr hnil] at hch
      exact absurd hch (by simp)
    refine ⟨?_, by simp [hvalid], ?_⟩
    · dsimp only
      simp only [confidenceFor]
      split_ifs <;> simp [hvalid]
    · intro sel' hsel'
      obtain rfl : sel = sel' := by simpa using hsel'
      dsimp only
      simp only [confidenceFor]
      split_ifs with h1 h2
      · refine ⟨?_, ?_, ?_⟩ <;> simp [h1]
      · refine ⟨?_, ?_, ?_⟩ <;> simp [h1, h2]
      · refine ⟨?_, ?_, ?_⟩ <;> simp [h1, h2]

/-- C3 witness: the rules applied at a concrete candidate list — an
`EXIF:CreateDate` (weight 8) agreeing with a `filename_date` instant 10
seconds later yields HIGH, and the empty list yields NONE with a null
timestamp. -/
theorem C3_witness :
    (calculate_confidence
      [⟨2024, 0, "EXIF:CreateDate"⟩, ⟨2024, 10, "filename_date"⟩] 2000).2.1 =
      ConfidenceLevel.high ∧
    (calculate_confidence ([] : List Cand) 2000).1 = none := by
  constructor
  · have h := (C3_confidence_rules
      [⟨2024, 0, "EXIF:CreateDate"⟩, ⟨2024, 10, "filename_date"⟩]).2.2
      ⟨2024, 0, "EXIF:CreateDate"⟩ (by decide)
    exact h.1.mpr ⟨by decide, by decide⟩
  · exact (C3_confidence_rules []).2.1.mpr (by decide)

/-- C8 counterexample: two candidates tied at the same instant, listed with
the lexicographically larger source tag first.  The selected source is the
first-listed `"filename_datetime"`, not the lexicographically smallest
`"filename_date"` — the tie is broken by input order (stable sort plus
first match), not lexicographically. -/
theorem C8_counterexample :
    let cands : List Cand :=
      [⟨2024, 0, "filename_datetime"⟩, ⟨2024, 0, "filename_date"⟩]
    timestampSourceFor cands 2000 = "filename_datetime" ∧
    cands.map Cand.t = [0, 0] ∧
    ("filename_date" : String).data < ("filename_datetime" : String).data := by
  refine ⟨by decide, by decide, by decide⟩

/-- C8 (amended): when a timestamp is selected, the stored
`timestamp_source` is the source tag of the FIRST candidate in the
original candidate-list order whose instant equals the selected instant
(ties are broken by list position, which is deterministic, not by
lexicographic comparison of tags). -/
theorem C8_tiebreak_source (cands : List Cand) (min_year t : Int)
    (h : (calculate_confidence cands min_year).1 = some t) :
    ∃ i, ∃ hi : i < cands.length, (cands.get ⟨i, hi⟩).t = t ∧
      timestampSourceFor cands min_year = (cands.get ⟨i, hi⟩).source ∧
      ∀ j, j < i → ∀ hjl : j < cands.length, (cands.get ⟨j, hjl⟩).t ≠ t := by
  rw [calculate_confidence_eq] at h
  rcases hch : chosenCandidate min_year cands with _ | sel
  · rw [hch] at h
    exact absurd h (by simp)
  · rw [hch] at h
    have ht : sel.t = t := by simpa using h
    have hmem : sel ∈ cands := chosenCandidate_mem min_year cands sel hch
    obtain ⟨i, hi, hit, hfind, hfirst⟩ :=
      findSourceFor_first cands t ⟨sel, hmem, ht⟩
    refine ⟨i, hi, hit, ?_, hfirst⟩
    unfold timestampSourceFor
    rw [calculate_confidence_eq, hch]
    simp only [ht, hfind]
    rfl

/-- C8 witness: the amended statement applied at a two-candidate tie; the
first matching index is 0, the first-listed candidate. -/
theorem C8_witness :
    ∃ i, ∃ hi : i <
        ([⟨2024, 5, "EXIF:CreateDate"⟩, ⟨2024, 5, "EXIF:DateTimeOriginal"⟩] :
          List Cand).length,
      (([⟨2024, 5, "EXIF:CreateDate"⟩, ⟨2024, 5, "EXIF:DateTimeOriginal"⟩] :
          List Cand).get ⟨i, hi⟩).t = 5 ∧
      timestampSourceFor
        [⟨2024, 5, "EXIF:CreateDate"⟩, ⟨2024, 5, "EXIF:DateTimeOriginal"⟩] 2000 =
        (([⟨2024, 5, "EXIF:CreateDate"⟩, ⟨2024, 5, "EXIF:DateTimeOriginal"⟩] :
          List Cand).get ⟨i, hi⟩).source ∧
      ∀ j, j < i → ∀ hjl : j <
          ([⟨2024, 5, "EXIF:CreateDate"⟩, ⟨2024, 5, "EXIF:DateTimeOriginal"⟩] :
            List Cand).length,
        (([⟨2024, 5, "EXIF:CreateDate"⟩, ⟨2024, 5, "EXIF:DateTimeOriginal"⟩] :
          List Cand).get ⟨j, hjl⟩).t ≠ 5 :=
  C8_tiebreak_source
    [⟨2024, 5, "EXIF:CreateDate"⟩, ⟨2024, 5, "EXIF:DateTimeOriginal"⟩]
    2000 5 (by decide)

/-- C4 counterexample: two files with perfectly comparable perceptual
hashes at Hamming distance 3 (an exact-duplicate distance) whose detected
timestamps are 100 seconds apart.  They fall into different timestamp
clusters, so `detect_perceptual_duplicates` never compares them: the pair
is skipped and no group is created. -/
theorem C4_counterexample :
    let fa : File := { (default : File) with
      id := 1
      detected_timestamp := some 0
      file_hash_perceptual := some "0000000000000000" }
    let fb : File := { (default : File) with
      id := 2
      detected_timestamp := some 100
      file_hash_perceptual := some "0000000000000007" }
    let st := detect_perceptual_duplicates [fa, fb] CLUSTER_WINDOW_SECONDS
    hamming_distance fa.file_hash_perceptual fb.file_hash_perceptual = 3 ∧
    strFalsy fa.file_hash_perceptual = false ∧
    strFalsy fb.file_hash_perceptual = false ∧
    (st.files.getD 0 default).exact_group_id = none ∧
    (st.files.getD 1 default).exact_group_id = none ∧
    (st.files.getD 0 default).similar_group_id = none ∧
    (st.files.getD 1 default).similar_group_id = none := by
  decide

/-- C4 (amended): only pairs inside one timestamp cluster are compared.
Within a cluster no eligible pair is skipped: for every pair of positions
produced by the pairwise loop whose files both carry a truthy perceptual
hash, the Hamming distance is computed and acted on — distance ≤ 5 leaves
both files in an exact group, distance 6–20 leaves both in a similar
group.  Moreover every member of every timestamp cluster has a non-null
`detected_timestamp` (files without one are excluded from comparison). -/
theorem C4_cluster_pair_analysis :
    (∀ (st : PState) (cluster : List Nat) (i j : Nat),
      (i, j) ∈ pairsOf cluster →
      i < st.files.length → j < st.files.length →
      ¬ strFalsy (st.files.getD i default).file_hash_perceptual = true →
      ¬ strFalsy (st.files.getD j default).file_hash_perceptual = true →
      (hamming_distance (st.files.getD i default).file_hash_perceptual
          (st.files.getD j default).file_hash_perceptual ≤ 5 →
        ((analyze_cluster st cluster).files.getD i default).exact_group_id.isSome = true ∧
        ((analyze_cluster st cluster).files.getD j default).exact_group_id.isSome = true) ∧
      (6 ≤ hamming_distance (st.files.getD i default).file_hash_perceptual
          (st.files.getD j default).file_hash_perceptual ∧
       hamming_distance (st.files.getD i default).file_hash_perceptual
          (st.files.getD j default).file_hash_perceptual ≤ 20 →
        ((analyze_cluster st cluster).files.getD i default).similar_group_id.isSome = true ∧
        ((analyze_cluster st cluster).files.getD j default).similar_group_id.isSome = true)) ∧
    (∀ (files : List File) (thr : Int) (c : List Nat) (idx : Nat),
      c ∈ cluster_by_timestamp files thr → idx ∈ c →
      ((files.getD idx default).detected_timestamp).isSome = true) := by
  constructor
  · intro st cluster i j hmem hi hj hha hhb
    obtain ⟨l1, l2, hsplit⟩ := List.append_of_mem hmem
    unfold analyze_cluster
    rw [hsplit, List.foldl_append, List.foldl_cons]
    have hlen1 : (l1.foldl analyzePairStep st).files.length = st.files.length :=
      foldl_analyze_length l1 st
    have hhi : ((l1.foldl analyzePairStep st).files.getD i default).file_hash_perceptual =
        (st.files.getD i default).file_hash_perceptual := foldl_analyze_hash l1 st i
    have hhj : ((l1.foldl analyzePairStep st).files.getD j default).file_hash_perceptual =
        (st.files.getD j default).file_hash_perceptual := foldl_analyze_hash l1 st j
    have hcls := analyzePairStep_classifies (l1.foldl analyzePairStep st) i j
      (by omega) (by omega) (by rw [hhi]; exact hha) (by rw [hhj]; exact hhb)
    rw [hhi, hhj] at hcls
    constructor
    · intro hd5
      have hpa : pairAction (hamming_distance
          (st.files.getD i default).file_hash_perceptual
          (st.files.getD j default).file_hash_perceptual) = .duplicate := by
        unfold pairAction EXACT_THRESHOLD
        rw [if_pos hd5]
      obtain ⟨ha, hb⟩ := hcls.1 hpa
      exact ⟨foldl_analyze_exact_mono l2 _ i ha,
        foldl_analyze_exact_mono l2 _ j hb⟩
    · intro hd20
      have hpa : pairAction (hamming_distance
          (st.files.getD i default).file_hash_perceptual
          (st.files.getD j default).file_hash_perceptual) = .similar := by
        unfold pairAction EXACT_THRESHOLD SIMILAR_THRESHOLD
        rw [if_neg (by omega), if_pos (by omega)]
      obtain ⟨ha, hb⟩ := hcls.2 hpa
      exact ⟨foldl_analyze_similar_mono l2 _ i ha,
        foldl_analyze_similar_mono l2 _ j hb⟩
  · intro files thr c idx hc hidx
    exact cluster_member_timestamped files thr c idx hc hidx

/-- C4 witness: two files 1 second apart at Hamming distance 3, forming a
single cluster with the pair `(0, 1)`; after analysis both are in an exact
group. -/
theorem C4_witness :
    let fa : File := { (default : File) with
      id := 1
      detected_timestamp := some 0
      file_hash_perceptual := some "0000000000000000" }
    let fb : File := { (default : File) with
      id := 2
      detected_timestamp := some 1
      file_hash_perceptual := some "0000000000000007" }
    ((analyze_cluster ⟨[fa, fb], 0⟩ [0, 1]).files.getD 0 default).exact_group_id.isSome = true ∧
    ((analyze_cluster ⟨[fa, fb], 0⟩ [0, 1]).files.getD 1 default).exact_group_id.isSome = true := by
  intro fa fb
  exact (C4_cluster_pair_analysis.1 ⟨[fa, fb], 0⟩ [0, 1] 0 1
    (by decide) (by decide) (by decide) (by decide) (by decide)).1 (by decide)

/-- C10 (confirmed): on file dicts with sanely populated quality metrics
(non-negative resolutions; byte sizes are naturals), the recommendation is
`None` exactly for the empty list, and otherwise it is the id of some
element of the list that maximizes the quality score. -/
theorem C10_recommend_best (files : List FileDict)
    (hres : ∀ f ∈ files, ∀ r, f.resolution_mp = some r → 0 ≤ r) :
    (recommend_best_duplicate files = none ↔ files = []) ∧
    (files ≠ [] → ∃ f ∈ files, recommend_best_duplicate files = some f.id ∧
      ∀ g ∈ files, qualityScore g ≤ qualityScore f) := by
  unfold recommend_best_duplicate
  rcases recommendAux_spec files none (-1) with ⟨heq, hall⟩ | ⟨f, hf, heq, _hlt, hall⟩
  · cases files with
    | nil => exact ⟨by simp [heq], by simp⟩
    | cons f fs =>
      exfalso
      have h0 : 0 ≤ qualityScore f :=
        qualityScore_nonneg f (hres f (by simp))
      have h1 : qualityScore f ≤ -1 := hall f (by simp)
      linarith
  · constructor
    · rw [heq]
      constructor
      · intro h
        exact absurd h (by simp)
      · intro h
        rw [h] at hf
        exact absurd hf (List.not_mem_nil f)
    · intro _
      exact ⟨f, hf, heq, hall⟩

/-- C10 witness: on two resolution-less dicts the larger file (id 1,
100 bytes) is recommended over the smaller (id 2, 50 bytes). -/
theorem C10_witness :
    ∃ f ∈ ([⟨1, none, 100, none⟩, ⟨2, none, 50, none⟩] : List FileDict),
      recommend_best_duplicate
        [⟨1, none, 100, none⟩, ⟨2, none, 50, none⟩] = some f.id ∧
      ∀ g ∈ ([⟨1, none, 100, none⟩, ⟨2, none, 50, none⟩] : List FileDict),
        qualityScore g ≤ qualityScore f := by
  have h := C10_recommend_best [⟨1, none, 100, none⟩, ⟨2, none, 50, none⟩]
    (by intro f hf r hr; fin_cases hf <;> simp at hr)
  exact h.2 (by simp)

end MediaParser
